import Mathlib

/-!
Shallow embedding of the full-control fleet adapter: the per-robot command
handle (`FleetDriverRobotCommandHandle`) and the fleet coordinator
(`Connections` / the `make_fleet` subscriptions) of the source.

Modelling conventions:
* machine floating-point coordinates, battery percentages and speed limits
  become exact rationals (`Rat`); the branch conditions of the source are
  polynomial comparisons of dot products, so no square roots are needed and
  every norm comparison is replaced by the equivalent comparison of squares;
* `std::chrono::steady_clock::time_point` becomes an integer nanosecond
  count, passed in as `now` by the caller of each operation;
* calls on the external updater (`RobotUpdateHandle`), message publications
  and log lines become an `Event` trace returned next to the new state;
* a C++ crash (an `assert`, `std::vector::at` out of range, or reading a
  disengaged `std::optional`) is modelled by an `Option` result that is
  `none` there.
-/

namespace FleetAdapter

/-- rmf_fleet_msgs/Location: a timestamped pose on a named level, plus the
approach-speed-limit fields that `follow_new_path` fills in. -/
structure Location where
  t : Int
  x : Rat
  y : Rat
  yaw : Rat
  level_name : String
  obey_approach_speed_limit : Bool := false
  approach_speed_limit : Rat := 0
  deriving DecidableEq, Repr, Inhabited

/-- RobotMode values the handle branches on (`MODE_ADAPTER_ERROR`,
`MODE_DOCKING`) together with the other values of the message, which the
code treats uniformly. -/
inductive RobotMode
  | Idle
  | Charging
  | Moving
  | Paused
  | Waiting
  | Emergency
  | GoingHome
  | Docking
  | AdapterError
  deriving DecidableEq, Repr, Inhabited

/-- rmf_fleet_msgs/RobotState: one telemetry snapshot from the fleet driver. -/
structure RobotState where
  name : String
  task_id : String
  mode : RobotMode
  battery_percent : Rat
  location : Location
  path : List Location
  deriving DecidableEq, Repr, Inhabited

/-- rmf_traffic::agv::Graph::Lane entry events; `DockFinder` only ever reacts
to `Dock`. -/
inductive LaneEvent
  | Dock (dock_name : String)
  | DoorOpen
  | DoorClose
  | LiftSessionBegin
  | LiftMove
  | LiftDoorOpen
  | LiftSessionEnd
  | Wait
  deriving DecidableEq, Repr

/-- rmf_traffic::agv::Graph::Waypoint: a 2D position on a named map. -/
structure Waypoint where
  map_name : String
  x : Rat
  y : Rat
  wp_name : Option String := none
  deriving DecidableEq, Repr, Inhabited

/-- rmf_traffic::agv::Graph::Lane: a directed lane between two waypoint
indices with an optional entry event and an optional speed limit. -/
structure Lane where
  entry_wp : Nat
  exit_wp : Nat
  entry_event : Option LaneEvent := none
  speed_limit : Option Rat := none
  deriving DecidableEq, Repr, Inhabited

/-- The navigation graph, immutable and shared. -/
structure Graph where
  waypoints : List Waypoint
  lanes : List Lane
  deriving DecidableEq, Repr, Inhabited

/-- Graph::get_waypoint. Lookups in the source are always in range; the
model totalises them with a default element. -/
def Graph.getWaypoint (g : Graph) (i : Nat) : Waypoint :=
  g.waypoints.getD i default

/-- Graph::get_lane, totalised like `Graph.getWaypoint`. -/
def Graph.getLane (g : Graph) (i : Nat) : Lane :=
  g.lanes.getD i default

/-- Graph::lane_from(from, to): the lane whose entry is `wfrom` and whose
exit is `wto`, when one exists. -/
def Graph.laneFrom (g : Graph) (wfrom wto : Nat) : Option Nat :=
  g.lanes.findIdx? (fun ln => ln.entry_wp == wfrom && ln.exit_wp == wto)

/-- Dot product of 2D vectors represented as pairs. -/
def dot2 (a b : Rat × Rat) : Rat :=
  a.1 * b.1 + a.2 * b.2

/-- Componentwise difference of 2D vectors. -/
def sub2 (a b : Rat × Rat) : Rat × Rat :=
  (a.1 - b.1, a.2 - b.2)

/-- Squared Euclidean norm. -/
def sqNorm (a : Rat × Rat) : Rat :=
  dot2 a a

/-- DistanceFromGraph::Type. -/
inductive DFGType
  | waypoint
  | lane
  deriving DecidableEq, Repr

/-- DistanceFromGraph, except that `value` carries the squared distance
(squaring is strictly monotone on nonnegatives, so every comparison and the
final argmin agree with the source's). -/
structure DistanceFromGraph where
  value : Rat
  index : Nat
  type : DFGType
  deriving DecidableEq, Repr

/-- The running-minimum update both loops of distance_from_graph perform:
take the candidate when there is no minimum yet or it is strictly closer. -/
def considerCandidate (cur : Option DistanceFromGraph) (d : Rat) (i : Nat)
    (ty : DFGType) : Option DistanceFromGraph :=
  match cur with
  | none => some ⟨d, i, ty⟩
  | some c => if d < c.value then some ⟨d, i, ty⟩ else some c

/-- distance_from_graph: over every waypoint of the location's map, the
squared Euclidean distance; over every lane with an endpoint on that map
whose squared length is at least 1e-16 (the source skips lanes shorter than
1e-8) and onto which the position projects with parameter in [0, length],
the squared perpendicular distance ‖dp‖² − (dp·dp1)²/‖dp1‖²; the running
minimum is kept, waypoints scanned before lanes. -/
def distance_from_graph (l : Location) (g : Graph) : Option DistanceFromGraph :=
  let p : Rat × Rat := (l.x, l.y)
  let afterWaypoints := g.waypoints.enum.foldl
    (fun cur iw =>
      if iw.2.map_name ≠ l.level_name then cur
      else considerCandidate cur (sqNorm (sub2 (iw.2.x, iw.2.y) p)) iw.1 .waypoint)
    none
  g.lanes.enum.foldl
    (fun cur il =>
      let wp0 := g.getWaypoint il.2.entry_wp
      let wp1 := g.getWaypoint il.2.exit_wp
      if l.level_name ≠ wp0.map_name ∧ l.level_name ≠ wp1.map_name then cur
      else
        let p0 : Rat × Rat := (wp0.x, wp0.y)
        let p1 : Rat × Rat := (wp1.x, wp1.y)
        let dp := sub2 p p0
        let dp1 := sub2 p1 p0
        let laneLengthSq := sqNorm dp1
        if laneLengthSq < (1 : Rat) / 10 ^ 16 then cur
        else
          let proj := dot2 dp dp1
          if proj < 0 ∨ laneLengthSq < proj then cur
          else considerCandidate cur (sqNorm dp - proj ^ 2 / laneLengthSq) il.1 .lane)
    afterWaypoints

/-- rmf_traffic::agv::Plan::Waypoint — the fields the handle reads: a pose,
a target time, an optional graph waypoint index and the approach lanes. -/
structure PlanWaypoint where
  x : Rat
  y : Rat
  yaw : Rat
  time : Int
  graph_index : Option Nat := none
  approach_lanes : List Nat := []
  deriving DecidableEq, Repr, Inhabited

/-- One observable side effect of a handle operation: a call on the robot's
updater (RobotUpdateHandle), a publication, or a log line. -/
inductive Event
  | updateBatterySoc (soc : Rat)
  | logBatteryError
  | logWarnNoState
  | publishPathRequest (task_id : String)
  | publishModeRequest (task_id : String)
  | estimateStateCalled
  | estimatePathTravelingCalled
  | checkPathFinishCalled
  | estimateWaypointCalled
  | pathFinished
  | dockFinished
  | schedulePush
  | updatePositionLanes (x y yaw : Rat) (lanes : List Nat)
  | updatePositionWaypoint (x y yaw : Rat) (waypoint : Nat)
  | replanRequested
  | interruptRegistered (id : String) (labels : List String)
  | resumeInvoked (token : Nat) (labels : List String)
  | actionFinished
  deriving DecidableEq, Repr

/-- Per-robot mutable state of FleetDriverRobotCommandHandle together with
its TravelInfo. Callbacks are modelled by presence flags. The interrupt
registry maps interrupt ids to the token of the stored Interruption object;
`updater->interrupt` hands out fresh tokens, modelled by a counter. -/
structure Handle where
  graph : Graph
  current_path_task_id : String := ""
  current_path_request_path : List Location := []
  path_requested_time : Int := 0
  waypoints : List PlanWaypoint := []
  target_plan_index : Option Nat := none
  hasArrivalEstimator : Bool := false
  hasPathFinishedCallback : Bool := false
  last_known_state : Option RobotState := none
  last_known_wp : Option Nat := none
  interrupted : Bool := false
  current_dock_task_id : String := ""
  dock_parameter : String := ""
  dock_target_wp : Option Nat := none
  dock_requested_time : Int := 0
  dock_schedule_time : Int
  hasDockFinishedCallback : Bool := false
  interruptions : List (String × Nat) := []
  next_interrupt_token : Nat := 0
  current_task_id : Nat := 0
  hasActionExecution : Bool := false
  deriving DecidableEq, Repr

/-- The handle's constructor: counters at zero, no callbacks, no telemetry
ever received; `_dock_schedule_time` is initialised to the clock reading at
construction. -/
def mkHandle (g : Graph) (now : Int) : Handle :=
  { graph := g, dock_schedule_time := now }

/-- Result of one estimation call: the `target_plan_index` and
`last_known_wp` it leaves behind in the TravelInfo. -/
structure EstResult where
  target : Option Nat
  lastWp : Option Nat
  deriving DecidableEq, Repr

/-- Modelled from the spec: the estimation functions of estimation.hpp
(`estimate_state`, `estimate_path_traveling`, `check_path_finish`,
`estimate_waypoint`) are code of this repository that is not among the
provided sources. The spec describes them as stateless procedures that take
a telemetry snapshot plus travel state and update the estimated position,
advance the plan index, or detect arrival; `check_path_finish` invokes the
path-finished callback when the robot has arrived (the Bool below). The
model leaves their results fully abstract. `trajectorySize` stands for the
size of the trajectory rmf_traffic::agv::Interpolate::positions produces
for the docking path, and `participantAvailable` for
`updater->unstable().get_participant()` being non-null — both external
collaborators of the core. -/
structure ExtModel where
  estimateState : RobotState → Handle → EstResult
  estimatePathTraveling : RobotState → Handle → EstResult
  checkPathFinish : RobotState → Handle → EstResult × Bool
  estimateWaypoint : RobotState → Handle → EstResult
  trajectorySize : RobotState → Nat
  participantAvailable : Bool

/-- 200 ms command-resend threshold, in steady-clock nanoseconds. -/
def resendThresholdNs : Int := 200000000

/-- 1 s dock schedule-push throttle, in steady-clock nanoseconds. -/
def dockScheduleThresholdNs : Int := 1000000000

/-- _clear_last_command(): drop the arrival estimator and both completion
callbacks. -/
def clearLastCommand (h : Handle) : Handle :=
  { h with
    hasArrivalEstimator := false
    hasPathFinishedCallback := false
    hasDockFinishedCallback := false }

/-- The per-waypoint speed limit of follow_new_path: the minimum over all
approach lanes' speed limits, none when no approach lane has one. -/
def approachSpeedLimit (g : Graph) (wp : PlanWaypoint) : Option Rat :=
  wp.approach_lanes.foldl
    (fun acc l =>
      match (g.getLane l).speed_limit with
      | none => acc
      | some v =>
        match acc with
        | none => some v
        | some a => some (min a v))
    none

/-- The driver-facing Location follow_new_path emits for one plan waypoint:
its timed pose, the level name when the waypoint sits on the graph (blank
otherwise), and the approach speed limit when one exists. -/
def locationOfPlanWaypoint (g : Graph) (wp : PlanWaypoint) : Location :=
  let base : Location :=
    { t := wp.time
      x := wp.x
      y := wp.y
      yaw := wp.yaw
      level_name :=
        match wp.graph_index with
        | some i => (g.getWaypoint i).map_name
        | none => "" }
  match approachSpeedLimit g wp with
  | some v => { base with obey_approach_speed_limit := true, approach_speed_limit := v }
  | none => base

/-- follow_new_path: clear prior callbacks and the target index, install
the new plan and callbacks, reset `interrupted`, bump the task id, build
the driver-facing path and publish it. -/
def followNewPath (now : Int) (h : Handle) (wps : List PlanWaypoint) :
    Handle × List Event :=
  let h1 := clearLastCommand h
  let h2 := { h1 with
    target_plan_index := none
    waypoints := wps
    hasArrivalEstimator := true
    hasPathFinishedCallback := true
    interrupted := false }
  let newTaskId := h2.current_task_id + 1
  let h3 := { h2 with
    current_task_id := newTaskId
    current_path_task_id := toString newTaskId
    current_path_request_path := wps.map (locationOfPlanWaypoint h2.graph)
    path_requested_time := now }
  (h3, [Event.publishPathRequest (toString newTaskId)])

/-- stop(): clear prior callbacks; if no telemetry has ever been received,
warn and return without publishing anything; otherwise publish a
single-waypoint path at the last known location under a fresh task id. -/
def stop (now : Int) (h : Handle) : Handle × List Event :=
  let h1 := clearLastCommand h
  match h1.last_known_state with
  | none => (h1, [Event.logWarnNoState])
  | some st =>
    let newTaskId := h1.current_task_id + 1
    let h2 := { h1 with
      current_task_id := newTaskId
      current_path_task_id := toString newTaskId
      current_path_request_path := [st.location]
      path_requested_time := now }
    (h2, [Event.publishPathRequest (toString newTaskId)])

/-- The DockFinder scan of dock(): the first lane whose entry event is
`Dock` with the requested name. -/
def findDockLane (g : Graph) (dock_name : String) : Option Nat :=
  g.lanes.findIdx? (fun ln =>
    match ln.entry_event with
    | some (LaneEvent.Dock nm) => nm == dock_name
    | _ => false)

/-- dock(): clear prior callbacks, install the dock-finished callback, bump
the task id and publish the docking mode request, then find the dock lane
to learn the target waypoint. The source asserts that the lane exists; a
missing dock name is the crash case `none` (the mode request has already
been published by then). -/
def dock (now : Int) (h : Handle) (dock_name : String) :
    Option (Handle × List Event) :=
  let h1 := clearLastCommand h
  let newTaskId := h1.current_task_id + 1
  let h2 := { h1 with
    hasDockFinishedCallback := true
    dock_parameter := dock_name
    current_task_id := newTaskId
    current_dock_task_id := toString newTaskId
    dock_requested_time := now }
  match findDockLane h2.graph dock_name with
  | none => none
  | some l =>
    some ({ h2 with dock_target_wp := some (h2.graph.getLane l).entry_wp },
      [Event.publishModeRequest (toString newTaskId)])

/-- Write an estimation result back into the TravelInfo. -/
def applyEst (h : Handle) (r : EstResult) : Handle :=
  { h with target_plan_index := r.target, last_known_wp := r.lastWp }

/-- update_state after its battery section: the snapshot is already stored
in `last_known_state` and `target_plan_index` has been cleared; dispatch on
which completion callback is installed. -/
def updateStateDispatch (ext : ExtModel) (now : Int) (h : Handle)
    (s : RobotState) : Handle × List Event :=
  if h.hasPathFinishedCallback then
    -- Following a path.
    if s.task_id ≠ h.current_path_task_id then
      -- The robot has not received our path request yet: rebroadcast it if
      -- it was published more than 200 ms ago, then estimate off-plan.
      let hr :=
        if resendThresholdNs < now - h.path_requested_time then
          ({ h with path_requested_time := now },
           [Event.publishPathRequest h.current_path_task_id])
        else (h, ([] : List Event))
      let r := ext.estimateState s hr.1
      (applyEst hr.1 r, hr.2 ++ [Event.estimateStateCalled])
    else if s.mode = RobotMode.AdapterError then
      -- The driver asks for a replan; only react to the first such report.
      if h.interrupted then (h, [])
      else
        let r := ext.estimateState s h
        ({ applyEst h r with interrupted := true },
         [Event.estimateStateCalled, Event.replanRequested])
    else if s.path.isEmpty then
      -- The robot believes it has arrived.
      let rf := ext.checkPathFinish s h
      let h2 := applyEst h rf.1
      if rf.2 then
        ({ h2 with hasPathFinishedCallback := false, hasArrivalEstimator := false },
         [Event.checkPathFinishCalled, Event.pathFinished])
      else (h2, [Event.checkPathFinishCalled])
    else
      let r := ext.estimatePathTraveling s h
      (applyEst h r, [Event.estimatePathTravelingCalled])
  else if h.hasDockFinishedCallback then
    -- Docking.
    if s.task_id ≠ h.current_dock_task_id then
      if resendThresholdNs < now - h.dock_requested_time then
        ({ h with dock_requested_time := now },
         [Event.publishModeRequest h.current_dock_task_id])
      else (h, [])
    else if s.mode ≠ RobotMode.Docking then
      -- Docking has finished: single-shot estimate, then the source
      -- overwrites last_known_wp with *the dock target waypoint* and fires
      -- the callback.
      let r := ext.estimateWaypoint s h
      ({ applyEst h r with
          last_known_wp := h.dock_target_wp
          hasDockFinishedCallback := false },
       [Event.estimateWaypointCalled, Event.dockFinished])
    else
      -- Still docking: throttled schedule push of the docking path.
      if ¬ s.path.isEmpty ∧ dockScheduleThresholdNs < now - h.dock_schedule_time then
        if ext.trajectorySize s < 2 then (h, [])
        else if ext.participantAvailable then
          ({ h with dock_schedule_time := now }, [Event.schedulePush])
        else (h, [])
      else (h, [])
  else
    -- Not under our command: best-effort position estimate only.
    let r := ext.estimateState s h
    (applyEst h r, [Event.estimateStateCalled])

/-- update_state(state): record the snapshot, forward the battery state of
charge when `battery_percent / 100 ∈ [0, 1]` (log and drop it otherwise),
clear `target_plan_index`, then dispatch on the installed callback. -/
def updateState (ext : ExtModel) (now : Int) (h : Handle) (s : RobotState) :
    Handle × List Event :=
  let h1 := { h with last_known_state := some s }
  let soc := s.battery_percent / 100
  let batteryEvents :=
    if 0 ≤ soc ∧ soc ≤ 1 then [Event.updateBatterySoc soc]
    else [Event.logBatteryError]
  let h2 := { h1 with target_plan_index := none }
  let r := updateStateDispatch ext now h2 s
  (r.1, batteryEvents ++ r.2)

/-- The body of newly_closed_lanes' first loop for one closed approach lane
of the current target waypoint, given the robot's last reported location:
when the position lies on the closed lane — not before its entry
(`(p−p0)·(p1−p0) < 0`) and not past its exit (`(p−p1)·(p1−p0) ≥ 0`) — the
robot is repositioned onto the reverse lane when one exists, else anchored
at the closed lane's entry waypoint; otherwise nothing is emitted. -/
def strandedEvents (g : Graph) (loc : Location) (l : Nat) : List Event :=
  let lane := g.getLane l
  let p : Rat × Rat := (loc.x, loc.y)
  let wp0 := g.getWaypoint lane.entry_wp
  let wp1 := g.getWaypoint lane.exit_wp
  let p0 : Rat × Rat := (wp0.x, wp0.y)
  let p1 : Rat × Rat := (wp1.x, wp1.y)
  let before_blocked_lane := dot2 (sub2 p p0) (sub2 p1 p0) < 0
  let after_blocked_lane := 0 ≤ dot2 (sub2 p p1) (sub2 p1 p0)
  if ¬ before_blocked_lane ∧ ¬ after_blocked_lane then
    match g.laneFrom lane.exit_wp lane.entry_wp with
    | some rev => [Event.updatePositionLanes loc.x loc.y loc.yaw [rev]]
    | none => [Event.updatePositionWaypoint loc.x loc.y loc.yaw lane.entry_wp]
  else []

/-- newly_closed_lanes(closed_lanes). The `none` cases model the two crash
sites of the source: `waypoints.at` with an out-of-range target index, and
reading `_last_known_state->location` (inside the loop over closed current
approach lanes) when no telemetry was ever recorded. Otherwise the handle
state is left untouched and the trace holds the repositioning calls of the
first loop followed by one replan request when any approach lane of any
remaining plan waypoint is closed. -/
def newlyClosedLanes (h : Handle) (closed : List Nat) :
    Option (Handle × List Event) :=
  match h.target_plan_index with
  | none => some (h, [])
  | some tgt =>
    if htgt : tgt < h.waypoints.length then
      let target_wp := h.waypoints.get ⟨tgt, htgt⟩
      let closedCurrent := target_wp.approach_lanes.filter (fun l => closed.contains l)
      let rest := (h.waypoints.drop tgt).any
        (fun w => w.approach_lanes.any (fun l => closed.contains l))
      match h.last_known_state with
      | none =>
        if closedCurrent.isEmpty then
          some (h, if rest then [Event.replanRequested] else [])
        else none
      | some st =>
        let evs := (closedCurrent.map (strandedEvents h.graph st.location)).flatten
        let need := if closedCurrent.isEmpty then rest else true
        some (h, evs ++ if need then [Event.replanRequested] else [])
    else none

/-- InterruptRequest::TYPE_INTERRUPT. -/
def TYPE_INTERRUPT : Nat := 0

/-- InterruptRequest::TYPE_RESUME. -/
def TYPE_RESUME : Nat := 1

/-- rmf_fleet_msgs/InterruptRequest, addressed to one robot. -/
structure InterruptRequest where
  robot_name : String := ""
  interrupt_id : String
  type : Nat
  labels : List String
  deriving DecidableEq, Repr

/-- Lookup in the interrupt registry. -/
def lookupInterruption (l : List (String × Nat)) (id : String) : Option Nat :=
  (l.find? (fun p => p.1 == id)).map Prod.snd

/-- handle_interrupt_request: a two-message protocol over the interrupt
registry. Unknown id: RESUME is dropped, anything else registers a new
interruption with the updater and stores the returned handle under the id.
Known id: INTERRUPT is dropped, anything else resumes the stored handle
with the request's labels and erases the entry. -/
def handleInterruptRequest (h : Handle) (req : InterruptRequest) :
    Handle × List Event :=
  match lookupInterruption h.interruptions req.interrupt_id with
  | none =>
    if req.type = TYPE_RESUME then (h, [])
    else
      ({ h with
          interruptions :=
            h.interruptions ++ [(req.interrupt_id, h.next_interrupt_token)]
          next_interrupt_token := h.next_interrupt_token + 1 },
       [Event.interruptRegistered req.interrupt_id req.labels])
  | some tok =>
    if req.type = TYPE_INTERRUPT then (h, [])
    else
      ({ h with
          interruptions := h.interruptions.filter (fun p => !(p.1 == req.interrupt_id)) },
       [Event.resumeInvoked tok req.labels])

/-- complete_robot_action: invoke the action execution's `finished` notifier
and clear the slot; no-op when no action is in progress. -/
def completeRobotAction (h : Handle) : Handle × List Event :=
  if h.hasActionExecution then
    ({ h with hasActionExecution := false }, [Event.actionFinished])
  else (h, [])

/-- One operation on the robot command handle, planner-facing or
inward-facing. -/
inductive Op
  | followNewPath (now : Int) (wps : List PlanWaypoint)
  | stop (now : Int)
  | dock (now : Int) (dock_name : String)
  | updateState (now : Int) (s : RobotState)
  | newlyClosedLanes (closed : List Nat)
  | interruptRequest (req : InterruptRequest)
  | setActionExecution
  | completeRobotAction

/-- Step the handle by one operation; `none` is a crash (the dock-lane
assert, or a fault inside newly_closed_lanes). `setActionExecution` is the
action-executor callback storing the execution slot. -/
def step (ext : ExtModel) (h : Handle) : Op → Option (Handle × List Event)
  | .followNewPath now wps => some (followNewPath now h wps)
  | .stop now => some (stop now h)
  | .dock now name => dock now h name
  | .updateState now s => some (updateState ext now h s)
  | .newlyClosedLanes closed => newlyClosedLanes h closed
  | .interruptRequest req => some (handleInterruptRequest h req)
  | .setActionExecution => some ({ h with hasActionExecution := true }, [])
  | .completeRobotAction => some (completeRobotAction h)

/-- Fold update_state over a list of (clock, snapshot) pairs, concatenating
the emitted events. -/
def runUpdates (ext : ExtModel) (h : Handle) :
    List (Int × RobotState) → Handle × List Event
  | [] => (h, [])
  | ts :: rest =>
    let r := updateState ext ts.1 h ts.2
    let r2 := runUpdates ext r.1 rest
    (r2.1, r.2 ++ r2.2)

/-- Modelled from the spec: `compute_plan_starts` is a planner utility of an
external package ("Planner utilities: compute_plan_starts(graph, map, pose,
time) → StartSet (empty on failure)"). Only the size of the start set
matters to the coordinator, so the model returns the count. -/
structure FleetExt where
  computePlanStarts : String → Rat × Rat × Rat → Int → Nat

/-- One observable effect at the fleet-coordinator level. `handleEvents`
wraps the trace of a forwarded update_state call. -/
inductive FleetEvent
  | computeStartsCalled (robot : String)
  | diagnosticUnlocatable (robot : String) (nearest : Option DistanceFromGraph)
  | addRobotRequested (robot : String)
  | updateStateCalled (robot : String)
  | handleEvents (robot : String) (evs : List Event)
  deriving DecidableEq, Repr

/-- Connections: the fleet coordinator's state. The robot map stores `none`
for a name whose registration produced no handle (the C++ map holds a null
shared_ptr there). -/
structure Connections where
  graph : Graph
  robots : List (String × Option Handle)
  closed_lanes : List Nat
  deriving Repr

/-- The robot map's entry for a name, when the name is present. -/
def lookupRobot (c : Connections) (name : String) : Option (Option Handle) :=
  (c.robots.find? (fun p => p.1 == name)).map Prod.snd

/-- Overwrite the value stored under an existing name of the robot map. -/
def setRobot (c : Connections) (name : String) (v : Option Handle) :
    Connections :=
  { c with robots := c.robots.map (fun p => if p.1 == name then (p.1, v) else p) }

/-- Connections::add_robot: compute plan starts from the reported pose; when
the start set is empty, emit the unlocatable diagnostic carrying the nearest
graph element and register nothing; otherwise ask the fleet to register the
handle. The fleet's on-added callback, which stores the handle into the
robot map, runs asynchronously in the source; the model runs it
immediately. -/
def addRobot (fext : FleetExt) (now : Int) (c : Connections)
    (state : RobotState) : Connections × List FleetEvent :=
  let l := state.location
  let nStarts := fext.computePlanStarts l.level_name (l.x, l.y, l.yaw) now
  if nStarts = 0 then
    (c, [FleetEvent.computeStartsCalled state.name,
         FleetEvent.diagnosticUnlocatable state.name (distance_from_graph l c.graph)])
  else
    (setRobot c state.name (some (mkHandle c.graph now)),
     [FleetEvent.computeStartsCalled state.name,
      FleetEvent.addRobotRequested state.name])

/-- One robot entry of the fleet_state_sub callback: insert a null
placeholder when the name is new and attempt add_robot; then, when the map
entry for the name holds a (non-null) command handle, forward the snapshot
through update_state. -/
def handleRobotState (ext : ExtModel) (fext : FleetExt) (now : Int)
    (c : Connections) (state : RobotState) : Connections × List FleetEvent :=
  match lookupRobot c state.name with
  | none =>
    let c1 := { c with robots := c.robots ++ [(state.name, none)] }
    let r := addRobot fext now c1 state
    (match lookupRobot r.1 state.name with
     | some (some hdl) =>
       let u := updateState ext now hdl state
       (setRobot r.1 state.name (some u.1),
        r.2 ++ [FleetEvent.updateStateCalled state.name,
                FleetEvent.handleEvents state.name u.2])
     | _ => r)
  | some none => (c, [])
  | some (some hdl) =>
    let u := updateState ext now hdl state
    (setRobot c state.name (some u.1),
     [FleetEvent.updateStateCalled state.name,
      FleetEvent.handleEvents state.name u.2])

/-- The fleet_state_sub callback: drop messages for other fleets, then
process each robot state of the batch in order. -/
def handleFleetState (ext : ExtModel) (fext : FleetExt) (now : Int)
    (c : Connections) (fleet_name msg_name : String)
    (states : List RobotState) : Connections × List FleetEvent :=
  if msg_name ≠ fleet_name then (c, [])
  else
    states.foldl
      (fun acc st =>
        let r := handleRobotState ext fext now acc.1 st
        (r.1, acc.2 ++ r.2))
      (c, [])


/-- Battery-related events: the two the battery section can emit. -/
def Event.isBatteryCall : Event → Bool
  | .updateBatterySoc _ => true
  | .logBatteryError => true
  | _ => false

/-- No branch of the post-battery dispatch emits a battery event. -/
theorem updateStateDispatch_no_batteryCall (ext : ExtModel) (now : Int)
    (h : Handle) (s : RobotState) :
    ∀ e ∈ (updateStateDispatch ext now h s).2, e.isBatteryCall = false := by
  intro e he
  cases e <;> try rfl
  case updateBatterySoc v =>
    exfalso
    unfold updateStateDispatch at he
    repeat' split at he
    all_goals (try (cases hb : (ext.checkPathFinish s h).2 <;> simp only [hb] at he))
    all_goals simp_all
  case logBatteryError =>
    exfalso
    unfold updateStateDispatch at he
    repeat' split at he
    all_goals (try (cases hb : (ext.checkPathFinish s h).2 <;> simp only [hb] at he))
    all_goals simp_all

/-- C6: for every update_state call, when battery_percent/100 lies in [0,1]
the updater's update_battery_soc receives exactly battery_percent/100; when
it lies outside, no battery call is made at all (the value is dropped, not
clamped) and an error is logged; either way the rest of the reconciliation
(the dispatch on the installed callback) still proceeds, on the same
intermediate state. -/
theorem update_state_battery_soc (ext : ExtModel) (now : Int)
    (h : Handle) (s : RobotState) :
    ((updateState ext now h s).2 =
      (if 0 ≤ s.battery_percent / 100 ∧ s.battery_percent / 100 ≤ 1
       then [Event.updateBatterySoc (s.battery_percent / 100)]
       else [Event.logBatteryError]) ++
      (updateStateDispatch ext now
        { h with last_known_state := some s, target_plan_index := none } s).2)
    ∧ (∀ v : Rat,
        Event.updateBatterySoc v ∈ (updateState ext now h s).2 ↔
        ((0 ≤ s.battery_percent / 100 ∧ s.battery_percent / 100 ≤ 1)
          ∧ v = s.battery_percent / 100))
    ∧ (Event.logBatteryError ∈ (updateState ext now h s).2 ↔
        ¬ (0 ≤ s.battery_percent / 100 ∧ s.battery_percent / 100 ≤ 1)) := by
  have hmain : (updateState ext now h s).2 =
      (if 0 ≤ s.battery_percent / 100 ∧ s.battery_percent / 100 ≤ 1
       then [Event.updateBatterySoc (s.battery_percent / 100)]
       else [Event.logBatteryError]) ++
      (updateStateDispatch ext now
        { h with last_known_state := some s, target_plan_index := none } s).2 := rfl
  have hnb := updateStateDispatch_no_batteryCall ext now
    { h with last_known_state := some s, target_plan_index := none } s
  refine ⟨hmain, ?_, ?_⟩
  · intro v
    rw [hmain, List.mem_append]
    constructor
    · rintro (hv | hv)
      · by_cases hb : 0 ≤ s.battery_percent / 100 ∧ s.battery_percent / 100 ≤ 1
        · rw [if_pos hb] at hv
          have hv2 := List.mem_singleton.mp hv
          injection hv2 with hveq
          exact ⟨hb, hveq⟩
        · rw [if_neg hb] at hv
          simp at hv
      · have := hnb _ hv
        simp [Event.isBatteryCall] at this
    · rintro ⟨hb, rfl⟩
      left
      rw [if_pos hb]
      exact List.mem_singleton.mpr rfl
  · rw [hmain, List.mem_append]
    constructor
    · rintro (hv | hv)
      · by_cases hb : 0 ≤ s.battery_percent / 100 ∧ s.battery_percent / 100 ≤ 1
        · rw [if_pos hb] at hv
          simp at hv
        · exact hb
      · have := hnb _ hv
        simp [Event.isBatteryCall] at this
    · intro hb
      left
      rw [if_neg hb]
      exact List.mem_singleton.mpr rfl



/-- The update_state result: the dispatch's state, and the battery section's
trace followed by the dispatch's trace. -/
theorem updateState_eq (ext : ExtModel) (now : Int) (h : Handle)
    (s : RobotState) :
    updateState ext now h s =
      ((updateStateDispatch ext now
          { h with last_known_state := some s, target_plan_index := none } s).1,
       (if 0 ≤ s.battery_percent / 100 ∧ s.battery_percent / 100 ≤ 1
        then [Event.updateBatterySoc (s.battery_percent / 100)]
        else [Event.logBatteryError]) ++
       (updateStateDispatch ext now
          { h with last_known_state := some s, target_plan_index := none } s).2) := rfl

/-- schedulePush is never a battery event, so its membership in an
update_state trace reduces to membership in the dispatch trace. -/
theorem schedulePush_mem_iff (ext : ExtModel) (now : Int) (h : Handle)
    (s : RobotState) :
    (Event.schedulePush ∈ (updateState ext now h s).2) =
      (Event.schedulePush ∈ (updateStateDispatch ext now
        { h with last_known_state := some s, target_plan_index := none } s).2) := by
  rw [updateState_eq]
  refine propext ?_
  simp only [List.mem_append]
  constructor
  · rintro (hb | hb)
    · split at hb <;> simp at hb
    · exact hb
  · intro hb
    exact Or.inr hb

/-- C7: during an acknowledged docking command (telemetry task id matching
the dock request, mode Docking), a schedule push happens only if the
residual path is non-empty and at least one second has passed since the
last push, and the push timestamp is refreshed exactly when a push occurs —
so pushes come at most once per second during continuous docking. -/
theorem dock_schedule_push_throttle (ext : ExtModel) (now : Int)
    (h : Handle) (s : RobotState)
    (hp : h.hasPathFinishedCallback = false)
    (hd : h.hasDockFinishedCallback = true)
    (hack : s.task_id = h.current_dock_task_id)
    (hmode : s.mode = RobotMode.Docking) :
    (Event.schedulePush ∈ (updateState ext now h s).2 →
      s.path ≠ [] ∧ dockScheduleThresholdNs ≤ now - h.dock_schedule_time
        ∧ (updateState ext now h s).1.dock_schedule_time = now)
    ∧ (Event.schedulePush ∉ (updateState ext now h s).2 →
        (updateState ext now h s).1.dock_schedule_time = h.dock_schedule_time) := by
  have h1 : (updateState ext now h s).1 = (updateStateDispatch ext now
      { h with last_known_state := some s, target_plan_index := none } s).1 := by
    rw [updateState_eq]
  rw [schedulePush_mem_iff, h1]
  set hh : Handle := { h with last_known_state := some s, target_plan_index := none }
    with hhdef
  have e1 : hh.hasPathFinishedCallback = false := hp
  have e2 : hh.hasDockFinishedCallback = true := hd
  have e3 : s.task_id = hh.current_dock_task_id := hack
  unfold updateStateDispatch
  rw [if_neg (by rw [e1]; exact Bool.false_ne_true), if_pos e2,
    if_neg (fun c => c e3), if_neg (fun c => c hmode)]
  by_cases hcond : ¬ s.path.isEmpty ∧ dockScheduleThresholdNs < now - hh.dock_schedule_time
  · rw [if_pos hcond]
    by_cases htr : ext.trajectorySize s < 2
    · rw [if_pos htr]
      simp
    · rw [if_neg htr]
      cases hpart : ext.participantAvailable
      · simp
      · constructor
        · intro _
          have hnil : s.path ≠ [] := by
            intro hn
            rw [hn] at hcond
            exact hcond.1 rfl
          exact ⟨hnil, le_of_lt hcond.2, rfl⟩
        · intro hmem
          exact absurd (by simp : Event.schedulePush ∈ _) hmem
  · rw [if_neg hcond]
    simp



/-- A trivial instantiation of the abstract external collaborators
(estimation results empty, interpolation and schedule participant
available), used by the concrete witnesses below. -/
def trivExt : ExtModel where
  estimateState := fun _ _ => ⟨none, none⟩
  estimatePathTraveling := fun _ _ => ⟨none, none⟩
  checkPathFinish := fun _ _ => (⟨none, none⟩, false)
  estimateWaypoint := fun _ _ => ⟨none, none⟩
  trajectorySize := fun s => s.path.length + 1
  participantAvailable := true

/-- Two waypoints on map L1 joined by a lane each way. -/
def sampleGraph : Graph where
  waypoints := [⟨"L1", 0, 0, none⟩, ⟨"L1", 1, 0, none⟩]
  lanes := [⟨0, 1, none, none⟩, ⟨1, 0, none, none⟩]

/-- A pose on map L1. -/
def sampleLoc (x y : Rat) : Location :=
  { t := 0, x := x, y := y, yaw := 0, level_name := "L1" }

/-- A telemetry snapshot at a pose on L1 with a healthy battery. -/
def sampleState (x y : Rat) : RobotState :=
  { name := "r1", task_id := "1", mode := RobotMode.Moving,
    battery_percent := 50, location := sampleLoc x y, path := [] }

/-- A handle mid-dock with task id 3 acknowledged, last push at time 0. -/
def dockHandle : Handle :=
  { mkHandle sampleGraph 0 with
    hasDockFinishedCallback := true
    current_dock_task_id := "3" }

/-- Telemetry during docking under task id 3 with a residual path. -/
def dockState : RobotState :=
  { sampleState 0 0 with
    task_id := "3"
    mode := RobotMode.Docking
    path := [sampleLoc 1 0] }

theorem dock_schedule_push_throttle_witness :
    Event.schedulePush ∈ (updateState trivExt 1000000001 dockHandle dockState).2
    ∧ dockState.path ≠ []
    ∧ dockScheduleThresholdNs ≤ 1000000001 - dockHandle.dock_schedule_time
    ∧ (updateState trivExt 1000000001 dockHandle dockState).1.dock_schedule_time
        = 1000000001 := by
  have hm : Event.schedulePush ∈ (updateState trivExt 1000000001 dockHandle dockState).2 := by
    norm_num [updateState, updateStateDispatch, trivExt, dockHandle, dockState,
      sampleState, sampleLoc, mkHandle, sampleGraph, dockScheduleThresholdNs, applyEst]
  have hthm := dock_schedule_push_throttle trivExt 1000000001 dockHandle dockState
    rfl rfl rfl rfl
  exact ⟨hm, (hthm.1 hm).1, (hthm.1 hm).2.1, (hthm.1 hm).2.2⟩

/-- C10: a stop issued before any telemetry has ever been received publishes
nothing and leaves the task-id counter (and path-request task id) unchanged,
but it has already cleared the arrival estimator and both completion
callbacks, so an in-flight path or dock command is silently abandoned: a
subsequent update_state can no longer fire either completion callback. -/
theorem stop_without_telemetry (ext : ExtModel) (now now2 : Int)
    (h : Handle) (s2 : RobotState)
    (hn : h.last_known_state = none) :
    (stop now h).2 = [Event.logWarnNoState]
    ∧ (stop now h).1.current_task_id = h.current_task_id
    ∧ (stop now h).1.current_path_task_id = h.current_path_task_id
    ∧ (stop now h).1.hasArrivalEstimator = false
    ∧ (stop now h).1.hasPathFinishedCallback = false
    ∧ (stop now h).1.hasDockFinishedCallback = false
    ∧ Event.pathFinished ∉ (updateState ext now2 (stop now h).1 s2).2
    ∧ Event.dockFinished ∉ (updateState ext now2 (stop now h).1 s2).2 := by
  have hstop : stop now h = (clearLastCommand h, [Event.logWarnNoState]) := by
    simp only [stop, clearLastCommand, hn]
  rw [hstop]
  refine ⟨rfl, rfl, rfl, rfl, rfl, rfl, ?_, ?_⟩ <;>
  · rw [updateState_eq]
    intro hmem
    rcases List.mem_append.mp hmem with hb | hb
    · split at hb <;> simp at hb
    · unfold updateStateDispatch at hb
      simp only [clearLastCommand] at hb
      simp at hb


theorem stop_without_telemetry_witness :
    (stop 5 (mkHandle sampleGraph 0)).2 = [Event.logWarnNoState]
    ∧ (stop 5 (mkHandle sampleGraph 0)).1.current_task_id
        = (mkHandle sampleGraph 0).current_task_id
    ∧ (stop 5 (mkHandle sampleGraph 0)).1.current_path_task_id
        = (mkHandle sampleGraph 0).current_path_task_id
    ∧ (stop 5 (mkHandle sampleGraph 0)).1.hasArrivalEstimator = false
    ∧ (stop 5 (mkHandle sampleGraph 0)).1.hasPathFinishedCallback = false
    ∧ (stop 5 (mkHandle sampleGraph 0)).1.hasDockFinishedCallback = false
    ∧ Event.pathFinished ∉
        (updateState trivExt 7 (stop 5 (mkHandle sampleGraph 0)).1 (sampleState 0 0)).2
    ∧ Event.dockFinished ∉
        (updateState trivExt 7 (stop 5 (mkHandle sampleGraph 0)).1 (sampleState 0 0)).2 :=
  stop_without_telemetry trivExt 5 7 (mkHandle sampleGraph 0) (sampleState 0 0) rfl



/-- The Following branch on an unacknowledged task id: rebroadcast iff the
request is strictly older than 200 ms, then run the off-plan estimate. -/
theorem updateStateDispatch_path_mismatch (ext : ExtModel) (now : Int)
    (hh : Handle) (s : RobotState)
    (hp : hh.hasPathFinishedCallback = true)
    (hmis : s.task_id ≠ hh.current_path_task_id) :
    updateStateDispatch ext now hh s =
      if resendThresholdNs < now - hh.path_requested_time then
        (applyEst { hh with path_requested_time := now }
          (ext.estimateState s { hh with path_requested_time := now }),
         [Event.publishPathRequest hh.current_path_task_id,
          Event.estimateStateCalled])
      else (applyEst hh (ext.estimateState s hh), [Event.estimateStateCalled]) := by
  unfold updateStateDispatch
  rw [if_pos hp, if_pos hmis]
  by_cases ht : resendThresholdNs < now - hh.path_requested_time
  · rw [if_pos ht, if_pos ht]
    rfl
  · rw [if_neg ht, if_neg ht]
    rfl

/-- The Docking branch on an unacknowledged task id: rebroadcast the mode
request iff it is strictly older than 200 ms, and nothing else. -/
theorem updateStateDispatch_dock_mismatch (ext : ExtModel) (now : Int)
    (hh : Handle) (s : RobotState)
    (hp : hh.hasPathFinishedCallback = false)
    (hd : hh.hasDockFinishedCallback = true)
    (hmis : s.task_id ≠ hh.current_dock_task_id) :
    updateStateDispatch ext now hh s =
      if resendThresholdNs < now - hh.dock_requested_time then
        ({ hh with dock_requested_time := now },
         [Event.publishModeRequest hh.current_dock_task_id])
      else (hh, []) := by
  unfold updateStateDispatch
  rw [if_neg (by rw [hp]; exact Bool.false_ne_true), if_pos hd, if_pos hmis]

/-- C4 (amended): while a command is unacknowledged (the telemetry's task id
differs from the current path request's — respectively dock request's —
task id), the pending command is rebroadcast if and only if strictly more
than 200 ms have elapsed since the last publish; on rebroadcast the publish
timestamp is refreshed to now, and when 200 ms or less have elapsed nothing
at all is published and the timestamps are unchanged. -/
theorem command_rebroadcast_threshold (ext : ExtModel) (now : Int)
    (h : Handle) (s : RobotState)
    (hcase : (h.hasPathFinishedCallback = true ∧ s.task_id ≠ h.current_path_task_id)
      ∨ (h.hasPathFinishedCallback = false ∧ h.hasDockFinishedCallback = true
          ∧ s.task_id ≠ h.current_dock_task_id)) :
    ((if h.hasPathFinishedCallback
      then Event.publishPathRequest h.current_path_task_id ∈ (updateState ext now h s).2
      else Event.publishModeRequest h.current_dock_task_id ∈ (updateState ext now h s).2)
      ↔ resendThresholdNs <
          now - (if h.hasPathFinishedCallback then h.path_requested_time
                 else h.dock_requested_time))
    ∧ (resendThresholdNs <
          now - (if h.hasPathFinishedCallback then h.path_requested_time
                 else h.dock_requested_time) →
        (if h.hasPathFinishedCallback then (updateState ext now h s).1.path_requested_time
         else (updateState ext now h s).1.dock_requested_time) = now)
    ∧ (¬ (resendThresholdNs <
          now - (if h.hasPathFinishedCallback then h.path_requested_time
                 else h.dock_requested_time)) →
        (∀ tid, Event.publishPathRequest tid ∉ (updateState ext now h s).2
          ∧ Event.publishModeRequest tid ∉ (updateState ext now h s).2)
        ∧ (updateState ext now h s).1.path_requested_time = h.path_requested_time
        ∧ (updateState ext now h s).1.dock_requested_time = h.dock_requested_time) := by
  rcases hcase with ⟨hp, hmis⟩ | ⟨hp, hd, hmis⟩
  · simp only [if_pos hp]
    have hdis := updateStateDispatch_path_mismatch ext now
      { h with last_known_state := some s, target_plan_index := none } s hp hmis
    rw [updateState_eq, hdis]
    by_cases ht : resendThresholdNs < now - h.path_requested_time
    · rw [if_pos ht]
      refine ⟨?_, fun _ => rfl, fun hc => absurd ht hc⟩
      simp only [List.mem_append]
      constructor
      · intro _
        exact ht
      · intro _
        right
        simp
    · rw [if_neg ht]
      refine ⟨?_, fun hc => absurd hc ht, fun _ => ⟨?_, rfl, rfl⟩⟩
      · simp only [List.mem_append]
        constructor
        · rintro (hb | hb)
          · exfalso
            split at hb <;> simp at hb
          · simp at hb
        · intro hc
          exact absurd hc ht
      · intro tid
        constructor <;>
        · intro hmem
          rcases List.mem_append.mp hmem with hb | hb
          · split at hb <;> simp at hb
          · simp at hb
  · have hnp : ¬ (h.hasPathFinishedCallback = true) := by
      rw [hp]
      exact Bool.false_ne_true
    simp only [if_neg hnp]
    have hdis := updateStateDispatch_dock_mismatch ext now
      { h with last_known_state := some s, target_plan_index := none } s hp hd hmis
    rw [updateState_eq, hdis]
    by_cases ht : resendThresholdNs < now - h.dock_requested_time
    · rw [if_pos ht]
      refine ⟨?_, fun _ => rfl, fun hc => absurd ht hc⟩
      simp only [List.mem_append]
      constructor
      · intro _
        exact ht
      · intro _
        right
        simp
    · rw [if_neg ht]
      refine ⟨?_, fun hc => absurd hc ht, fun _ => ⟨?_, rfl, rfl⟩⟩
      · simp only [List.mem_append]
        constructor
        · rintro (hb | hb)
          · exfalso
            split at hb <;> simp at hb
          · simp at hb
        · intro hc
          exact absurd hc ht
      · intro tid
        constructor <;>
        · intro hmem
          rcases List.mem_append.mp hmem with hb | hb
          · split at hb <;> simp at hb
          · simp at hb


/-- A handle following path-request task 7, which was published at clock 0. -/
def followHandle : Handle :=
  { mkHandle sampleGraph 0 with
    hasPathFinishedCallback := true
    hasArrivalEstimator := true
    current_path_task_id := "7" }

theorem command_rebroadcast_at_exactly_200ms :
    resendThresholdNs ≤ resendThresholdNs - followHandle.path_requested_time
    ∧ followHandle.hasPathFinishedCallback = true
    ∧ (sampleState 0 0).task_id ≠ followHandle.current_path_task_id
    ∧ (updateState trivExt resendThresholdNs followHandle (sampleState 0 0)).2
        = [Event.updateBatterySoc (50 / 100), Event.estimateStateCalled]
    ∧ (updateState trivExt resendThresholdNs followHandle
        (sampleState 0 0)).1.path_requested_time
        = followHandle.path_requested_time := by
  refine ⟨by norm_num [followHandle, mkHandle, resendThresholdNs], rfl, by decide, ?_, ?_⟩ <;>
    norm_num [updateState, updateStateDispatch, followHandle, sampleState, sampleLoc,
      mkHandle, sampleGraph, trivExt, resendThresholdNs, applyEst,
      show ¬ ("1" : String) = "7" by decide]

theorem command_rebroadcast_threshold_witness :
    Event.publishPathRequest followHandle.current_path_task_id
      ∈ (updateState trivExt 200000001 followHandle (sampleState 0 0)).2
    ∧ (updateState trivExt 200000001 followHandle
        (sampleState 0 0)).1.path_requested_time = 200000001 := by
  have hthm := command_rebroadcast_threshold trivExt 200000001 followHandle
    (sampleState 0 0) (Or.inl ⟨rfl, by decide⟩)
  have hgt : resendThresholdNs < 200000001 -
      (if followHandle.hasPathFinishedCallback then followHandle.path_requested_time
       else followHandle.dock_requested_time) := by
    norm_num [followHandle, mkHandle, resendThresholdNs]
  exact ⟨hthm.1.mpr hgt, hthm.2.1 hgt⟩



/-- Looking a key up after removing it from the registry yields nothing. -/
theorem lookupInterruption_filter (l : List (String × Nat)) (id : String) :
    lookupInterruption (l.filter (fun p => !(p.1 == id))) id = none := by
  unfold lookupInterruption
  rw [Option.map_eq_none']
  rw [List.find?_eq_none]
  intro x hx
  have hmem := List.mem_filter.mp hx
  simpa using hmem.2

/-- Looking a key up after appending it to a registry that lacks it. -/
theorem lookupInterruption_append (l : List (String × Nat)) (id : String)
    (tok : Nat) (hid : lookupInterruption l id = none) :
    lookupInterruption (l ++ [(id, tok)]) id = some tok := by
  unfold lookupInterruption at hid ⊢
  have hf : l.find? (fun p => p.1 == id) = none := Option.map_eq_none'.mp hid
  rw [List.find?_append, hf]
  simp [List.find?]

/-- C8: handle_interrupt_request is an idempotent two-message protocol on
the interrupt registry. For an unknown id, RESUME is a no-op while
INTERRUPT registers a new interruption and stores the returned
resume-handle under the id; for a known id, INTERRUPT is a no-op while
RESUME invokes the stored resume-handle with the request's labels and
removes the entry. -/
theorem interrupt_protocol (h : Handle) (id : String)
    (la la2 lb : List String)
    (hid : lookupInterruption h.interruptions id = none) :
    (handleInterruptRequest h ⟨"", id, TYPE_RESUME, lb⟩ = (h, []))
    ∧ ((handleInterruptRequest h ⟨"", id, TYPE_INTERRUPT, la⟩).2
        = [Event.interruptRegistered id la])
    ∧ (lookupInterruption
        (handleInterruptRequest h ⟨"", id, TYPE_INTERRUPT, la⟩).1.interruptions id
        = some h.next_interrupt_token)
    ∧ (handleInterruptRequest
        (handleInterruptRequest h ⟨"", id, TYPE_INTERRUPT, la⟩).1
        ⟨"", id, TYPE_INTERRUPT, la2⟩
        = ((handleInterruptRequest h ⟨"", id, TYPE_INTERRUPT, la⟩).1, []))
    ∧ ((handleInterruptRequest
          (handleInterruptRequest h ⟨"", id, TYPE_INTERRUPT, la⟩).1
          ⟨"", id, TYPE_RESUME, lb⟩).2
        = [Event.resumeInvoked h.next_interrupt_token lb])
    ∧ (lookupInterruption
        (handleInterruptRequest
          (handleInterruptRequest h ⟨"", id, TYPE_INTERRUPT, la⟩).1
          ⟨"", id, TYPE_RESUME, lb⟩).1.interruptions id = none) := by
  have hreg : handleInterruptRequest h ⟨"", id, TYPE_INTERRUPT, la⟩ =
      ({ h with
          interruptions := h.interruptions ++ [(id, h.next_interrupt_token)]
          next_interrupt_token := h.next_interrupt_token + 1 },
       [Event.interruptRegistered id la]) := by
    simp only [handleInterruptRequest, hid]
    rw [if_neg (by decide)]
  have hlook : lookupInterruption
      (h.interruptions ++ [(id, h.next_interrupt_token)]) id
      = some h.next_interrupt_token :=
    lookupInterruption_append _ _ _ hid
  have hresume : handleInterruptRequest h ⟨"", id, TYPE_RESUME, lb⟩ = (h, []) := by
    simp only [handleInterruptRequest, hid]
    rw [if_pos trivial]
  have hdup : handleInterruptRequest
      (handleInterruptRequest h ⟨"", id, TYPE_INTERRUPT, la⟩).1
      ⟨"", id, TYPE_INTERRUPT, la2⟩
      = ((handleInterruptRequest h ⟨"", id, TYPE_INTERRUPT, la⟩).1, []) := by
    rw [hreg]
    simp only [handleInterruptRequest, hlook]
    rw [if_pos trivial]
  have hres2 : handleInterruptRequest
      (handleInterruptRequest h ⟨"", id, TYPE_INTERRUPT, la⟩).1
      ⟨"", id, TYPE_RESUME, lb⟩
      = ({ h with
            interruptions :=
              (h.interruptions ++ [(id, h.next_interrupt_token)]).filter
                (fun p => !(p.1 == id))
            next_interrupt_token := h.next_interrupt_token + 1 },
         [Event.resumeInvoked h.next_interrupt_token lb]) := by
    rw [hreg]
    simp only [handleInterruptRequest, hlook]
    rw [if_neg (by decide)]
  refine ⟨hresume, by rw [hreg], by rw [hreg]; exact hlook, hdup, by rw [hres2],
    by rw [hres2]; exact lookupInterruption_filter _ _⟩

theorem interrupt_protocol_witness :
    (handleInterruptRequest (mkHandle sampleGraph 0) ⟨"", "x", TYPE_RESUME, ["b"]⟩
      = (mkHandle sampleGraph 0, []))
    ∧ ((handleInterruptRequest (mkHandle sampleGraph 0)
        ⟨"", "x", TYPE_INTERRUPT, ["a"]⟩).2 = [Event.interruptRegistered "x" ["a"]])
    ∧ (lookupInterruption
        (handleInterruptRequest (mkHandle sampleGraph 0)
          ⟨"", "x", TYPE_INTERRUPT, ["a"]⟩).1.interruptions "x"
        = some (mkHandle sampleGraph 0).next_interrupt_token)
    ∧ (handleInterruptRequest
        (handleInterruptRequest (mkHandle sampleGraph 0)
          ⟨"", "x", TYPE_INTERRUPT, ["a"]⟩).1
        ⟨"", "x", TYPE_INTERRUPT, ["c"]⟩
        = ((handleInterruptRequest (mkHandle sampleGraph 0)
            ⟨"", "x", TYPE_INTERRUPT, ["a"]⟩).1, []))
    ∧ ((handleInterruptRequest
          (handleInterruptRequest (mkHandle sampleGraph 0)
            ⟨"", "x", TYPE_INTERRUPT, ["a"]⟩).1
          ⟨"", "x", TYPE_RESUME, ["b"]⟩).2
        = [Event.resumeInvoked (mkHandle sampleGraph 0).next_interrupt_token ["b"]])
    ∧ (lookupInterruption
        (handleInterruptRequest
          (handleInterruptRequest (mkHandle sampleGraph 0)
            ⟨"", "x", TYPE_INTERRUPT, ["a"]⟩).1
          ⟨"", "x", TYPE_RESUME, ["b"]⟩).1.interruptions "x" = none) :=
  interrupt_protocol (mkHandle sampleGraph 0) "x" ["a"] ["c"] ["b"] rfl



/-- The Following branch on the first acknowledged AdapterError report:
mark interrupted, estimate, replan. -/
theorem updateStateDispatch_adapter_error_first (ext : ExtModel) (now : Int)
    (hh : Handle) (s : RobotState)
    (hp : hh.hasPathFinishedCallback = true)
    (hint : hh.interrupted = false)
    (hack : s.task_id = hh.current_path_task_id)
    (hmode : s.mode = RobotMode.AdapterError) :
    updateStateDispatch ext now hh s =
      ({ applyEst hh (ext.estimateState s hh) with interrupted := true },
       [Event.estimateStateCalled, Event.replanRequested]) := by
  unfold updateStateDispatch
  rw [if_pos hp, if_neg (fun c => c hack), if_pos hmode,
    if_neg (by rw [hint]; exact Bool.false_ne_true)]

/-- The Following branch on a repeated acknowledged AdapterError report:
a no-op. -/
theorem updateStateDispatch_adapter_error_repeat (ext : ExtModel) (now : Int)
    (hh : Handle) (s : RobotState)
    (hp : hh.hasPathFinishedCallback = true)
    (hint : hh.interrupted = true)
    (hack : s.task_id = hh.current_path_task_id)
    (hmode : s.mode = RobotMode.AdapterError) :
    updateStateDispatch ext now hh s = (hh, []) := by
  unfold updateStateDispatch
  rw [if_pos hp, if_neg (fun c => c hack), if_pos hmode, if_pos hint]

/-- The battery section never emits a replan request. -/
theorem batteryEvents_count_replan (s : RobotState) :
    ((if 0 ≤ s.battery_percent / 100 ∧ s.battery_percent / 100 ≤ 1
      then [Event.updateBatterySoc (s.battery_percent / 100)]
      else [Event.logBatteryError]) : List Event).count Event.replanRequested
      = 0 := by
  split <;> rfl

/-- A run of acknowledged AdapterError telemetry on an already-interrupted
Following handle requests no replans and preserves the interrupted flag. -/
theorem adapter_error_repeat_run (ext : ExtModel) (l : List (Int × RobotState))
    (h : Handle)
    (hp : h.hasPathFinishedCallback = true)
    (hint : h.interrupted = true)
    (hall : ∀ p ∈ l, p.2.mode = RobotMode.AdapterError
      ∧ p.2.task_id = h.current_path_task_id) :
    (runUpdates ext h l).2.count Event.replanRequested = 0
    ∧ (runUpdates ext h l).1.interrupted = true := by
  induction l generalizing h with
  | nil => exact ⟨rfl, hint⟩
  | cons p rest ih =>
    have hfirst := hall p (List.mem_cons_self p rest)
    have hd := updateStateDispatch_adapter_error_repeat ext p.1
      { h with last_known_state := some p.2, target_plan_index := none } p.2
      hp hint hfirst.2 hfirst.1
    have hstep : updateState ext p.1 h p.2 =
        ({ h with last_known_state := some p.2, target_plan_index := none },
         (if 0 ≤ p.2.battery_percent / 100 ∧ p.2.battery_percent / 100 ≤ 1
          then [Event.updateBatterySoc (p.2.battery_percent / 100)]
          else [Event.logBatteryError]) ++ []) := by
      rw [updateState_eq, hd]
    have hrest := ih { h with last_known_state := some p.2, target_plan_index := none }
      hp hint (fun q hq => hall q (List.mem_cons_of_mem p hq))
    simp only [runUpdates, hstep]
    refine ⟨?_, hrest.2⟩
    rw [List.count_append, List.count_append]
    rw [batteryEvents_count_replan]
    simpa using hrest.1

/-- C3: while a path command is acknowledged, a run of consecutive
update_state calls reporting AdapterError (with no intervening
follow_new_path) produces exactly one replan request: the first call sets
the interrupted flag and replans, every later call of the run is a no-op. -/
theorem adapter_error_single_replan (ext : ExtModel) (h : Handle)
    (l : List (Int × RobotState))
    (hp : h.hasPathFinishedCallback = true)
    (hint : h.interrupted = false)
    (hne : l ≠ [])
    (hall : ∀ p ∈ l, p.2.mode = RobotMode.AdapterError
      ∧ p.2.task_id = h.current_path_task_id) :
    (runUpdates ext h l).2.count Event.replanRequested = 1
    ∧ (runUpdates ext h l).1.interrupted = true := by
  rcases l with _ | ⟨p, rest⟩
  · exact absurd rfl hne
  · have hfirst := hall p (List.mem_cons_self p rest)
    have hd := updateStateDispatch_adapter_error_first ext p.1
      { h with last_known_state := some p.2, target_plan_index := none } p.2
      hp hint hfirst.2 hfirst.1
    have hstep : updateState ext p.1 h p.2 =
        ({ applyEst { h with last_known_state := some p.2, target_plan_index := none }
            (ext.estimateState p.2
              { h with last_known_state := some p.2, target_plan_index := none })
           with interrupted := true },
         (if 0 ≤ p.2.battery_percent / 100 ∧ p.2.battery_percent / 100 ≤ 1
          then [Event.updateBatterySoc (p.2.battery_percent / 100)]
          else [Event.logBatteryError]) ++
         [Event.estimateStateCalled, Event.replanRequested]) := by
      rw [updateState_eq, hd]
    have hrest := adapter_error_repeat_run ext rest
      ({ applyEst { h with last_known_state := some p.2, target_plan_index := none }
          (ext.estimateState p.2
            { h with last_known_state := some p.2, target_plan_index := none })
         with interrupted := true })
      hp rfl (fun q hq => hall q (List.mem_cons_of_mem p hq))
    simp only [runUpdates, hstep]
    refine ⟨?_, hrest.2⟩
    rw [List.count_append, List.count_append]
    rw [batteryEvents_count_replan]
    have h2 : ([Event.estimateStateCalled,
        Event.replanRequested] : List Event).count Event.replanRequested = 1 := rfl
    rw [h2]
    simpa using hrest.1


/-- Acknowledged AdapterError telemetry for `followHandle`. -/
def errorState : RobotState :=
  { sampleState 0 0 with task_id := "7", mode := RobotMode.AdapterError }

theorem adapter_error_single_replan_witness :
    (runUpdates trivExt followHandle
      [(0, errorState), (1, errorState)]).2.count Event.replanRequested = 1
    ∧ (runUpdates trivExt followHandle
        [(0, errorState), (1, errorState)]).1.interrupted = true :=
  adapter_error_single_replan trivExt followHandle [(0, errorState), (1, errorState)]
    rfl rfl (by decide) (by decide)



/-- The repositioning loop never itself requests a replan. -/
theorem replan_not_mem_strandedEvents (g : Graph) (loc : Location) (l : Nat) :
    Event.replanRequested ∉ strandedEvents g loc l := by
  intro hmem
  simp only [strandedEvents] at hmem
  split at hmem
  · split at hmem <;> simp_all
  · simp_all

/-- Scanning the plan's tail for a closed approach lane, as an indexed
existential. -/
theorem any_drop_closed_iff (xs : List PlanWaypoint) (n : Nat)
    (closed : List Nat) :
    ((xs.drop n).any
        (fun w => w.approach_lanes.any (fun l => closed.contains l)) = true)
      ↔ ∃ i w, n ≤ i ∧ xs[i]? = some w ∧ ∃ l ∈ w.approach_lanes, l ∈ closed := by
  rw [List.any_eq_true]
  constructor
  · rintro ⟨w, hw, hwl⟩
    rcases List.mem_iff_getElem?.mp hw with ⟨j, hj⟩
    rw [List.getElem?_drop] at hj
    rcases List.any_eq_true.mp hwl with ⟨l, hl, hlc⟩
    exact ⟨n + j, w, Nat.le_add_right n j, hj, l, hl, by simpa using hlc⟩
  · rintro ⟨i, w, hni, hiw, l, hl, hlc⟩
    refine ⟨w, ?_, List.any_eq_true.mpr ⟨l, hl, by simpa using hlc⟩⟩
    apply List.mem_iff_getElem?.mpr
    refine ⟨i - n, ?_⟩
    rw [List.getElem?_drop]
    rwa [Nat.add_sub_cancel' hni]

/-- C1: with an active target plan index (and a recorded telemetry
snapshot), newly_closed_lanes requests a replan exactly when some approach
lane of some plan waypoint at an index ≥ target_plan_index lies in the
newly closed set; in particular, when no such lane is closed no replan is
requested. -/
theorem newly_closed_lanes_replan_iff (h : Handle) (closed : List Nat)
    (tgt : Nat) (st : RobotState)
    (h1 : h.target_plan_index = some tgt)
    (h2 : tgt < h.waypoints.length)
    (h3 : h.last_known_state = some st) :
    ∃ evs, newlyClosedLanes h closed = some (h, evs)
      ∧ (Event.replanRequested ∈ evs ↔
          ∃ i w, tgt ≤ i ∧ h.waypoints[i]? = some w
            ∧ ∃ l ∈ w.approach_lanes, l ∈ closed) := by
  have htgtmem : h.waypoints.get ⟨tgt, h2⟩ ∈ h.waypoints.drop tgt := by
    apply List.mem_iff_getElem?.mpr
    refine ⟨0, ?_⟩
    rw [List.getElem?_drop, Nat.add_zero]
    exact List.getElem?_eq_getElem h2
  unfold newlyClosedLanes
  simp only [h1]
  rw [dif_pos h2]
  simp only [h3]
  refine ⟨_, rfl, ?_⟩
  have hnotflat : Event.replanRequested ∉
      (((h.waypoints.get ⟨tgt, h2⟩).approach_lanes.filter
          (fun l => closed.contains l)).map
        (strandedEvents h.graph st.location)).flatten := by
    intro hmem
    rcases List.mem_flatten.mp hmem with ⟨evs0, hevs0, hrep⟩
    rcases List.mem_map.mp hevs0 with ⟨l, _, rfl⟩
    exact replan_not_mem_strandedEvents h.graph st.location l hrep
  have hneed_iff :
      ((if ((h.waypoints.get ⟨tgt, h2⟩).approach_lanes.filter
            (fun l => closed.contains l)).isEmpty
        then (h.waypoints.drop tgt).any
          (fun w => w.approach_lanes.any (fun l => closed.contains l))
        else true) = true)
      ↔ ((h.waypoints.drop tgt).any
          (fun w => w.approach_lanes.any (fun l => closed.contains l)) = true) := by
    by_cases hie : ((h.waypoints.get ⟨tgt, h2⟩).approach_lanes.filter
        (fun l => closed.contains l)).isEmpty = true
    · rw [if_pos hie]
    · rw [if_neg hie]
      constructor
      · intro _
        rw [List.any_eq_true]
        refine ⟨h.waypoints.get ⟨tgt, h2⟩, htgtmem, ?_⟩
        rw [List.any_eq_true]
        have hfil_ne : (h.waypoints.get ⟨tgt, h2⟩).approach_lanes.filter
            (fun l => closed.contains l) ≠ [] := by
          intro hn
          rw [hn] at hie
          exact hie rfl
        rcases List.exists_mem_of_ne_nil _ hfil_ne with ⟨x, hx⟩
        have hmf := List.mem_filter.mp hx
        exact ⟨x, hmf.1, hmf.2⟩
      · intro _
        rfl
  constructor
  · intro hmem
    rcases List.mem_append.mp hmem with hf | hneed
    · exact absurd hf hnotflat
    · rw [← any_drop_closed_iff h.waypoints tgt closed]
      by_cases hni : ((if ((h.waypoints.get ⟨tgt, h2⟩).approach_lanes.filter
            (fun l => closed.contains l)).isEmpty
          then (h.waypoints.drop tgt).any
            (fun w => w.approach_lanes.any (fun l => closed.contains l))
          else true) = true)
      · exact hneed_iff.mp hni
      · rw [if_neg hni] at hneed
        simp at hneed
  · intro hrhs
    have hr := (any_drop_closed_iff h.waypoints tgt closed).mpr hrhs
    apply List.mem_append.mpr
    right
    rw [if_pos (hneed_iff.mpr hr)]
    exact List.mem_singleton.mpr rfl



/-- A handle with an active one-waypoint plan whose target is reached over
lane 0 of `sampleGraph`, robot midway along the lane. -/
def planHandle : Handle :=
  { mkHandle sampleGraph 0 with
    target_plan_index := some 0
    waypoints := [{ x := 1, y := 0, yaw := 0, time := 0, graph_index := some 1,
                    approach_lanes := [0] }]
    last_known_state := some (sampleState (1/2) 0) }

theorem newly_closed_lanes_replan_iff_witness :
    ∃ evs, newlyClosedLanes planHandle [0] = some (planHandle, evs)
      ∧ (Event.replanRequested ∈ evs ↔
          ∃ i w, 0 ≤ i ∧ planHandle.waypoints[i]? = some w
            ∧ ∃ l ∈ w.approach_lanes, l ∈ [0]) :=
  newly_closed_lanes_replan_iff planHandle [0] 0 (sampleState (1/2) 0)
    rfl (by decide) rfl

/-- The same handle with the robot exactly at the closed lane's exit
waypoint, i.e. with lane parameter u = ‖lane‖. -/
def exitHandle : Handle :=
  { planHandle with last_known_state := some (sampleState 1 0) }

theorem stranded_at_exit_no_reposition :
    (0 ≤ dot2 (sub2 ((1 : Rat), (0 : Rat)) (0, 0)) (sub2 (1, 0) (0, 0))
      ∧ dot2 (sub2 ((1 : Rat), (0 : Rat)) (1, 0)) (sub2 (1, 0) (0, 0)) ≤ 0)
    ∧ newlyClosedLanes exitHandle [0] = some (exitHandle, [Event.replanRequested]) := by
  constructor
  · constructor <;> norm_num [dot2, sub2]
  · norm_num [newlyClosedLanes, exitHandle, planHandle, mkHandle, sampleGraph,
      sampleState, sampleLoc, strandedEvents, dot2, sub2, Graph.getLane,
      Graph.getWaypoint, Graph.laneFrom, List.filter]

/-- C2 (amended): when a newly closed approach lane of the current target
waypoint holds the robot's position with lane parameter 0 ≤ u < ‖lane‖
(not before the entry: (p−p0)·(p1−p0) ≥ 0; strictly before the exit:
(p−p1)·(p1−p0) < 0), the updater's update_position is called exactly once —
on the reverse lane when one exists, else anchored at the closed lane's
entry waypoint, never both — and a replan is then requested. -/
theorem stranded_reposition_exactly_one (h : Handle) (closed : List Nat)
    (tgt l : Nat) (st : RobotState)
    (h1 : h.target_plan_index = some tgt)
    (h2 : tgt < h.waypoints.length)
    (h3 : h.last_known_state = some st)
    (h4 : (h.waypoints.get ⟨tgt, h2⟩).approach_lanes = [l])
    (h5 : l ∈ closed)
    (h6 : ¬ dot2
        (sub2 (st.location.x, st.location.y)
          ((h.graph.getWaypoint (h.graph.getLane l).entry_wp).x,
           (h.graph.getWaypoint (h.graph.getLane l).entry_wp).y))
        (sub2
          ((h.graph.getWaypoint (h.graph.getLane l).exit_wp).x,
           (h.graph.getWaypoint (h.graph.getLane l).exit_wp).y)
          ((h.graph.getWaypoint (h.graph.getLane l).entry_wp).x,
           (h.graph.getWaypoint (h.graph.getLane l).entry_wp).y)) < 0)
    (h7 : dot2
        (sub2 (st.location.x, st.location.y)
          ((h.graph.getWaypoint (h.graph.getLane l).exit_wp).x,
           (h.graph.getWaypoint (h.graph.getLane l).exit_wp).y))
        (sub2
          ((h.graph.getWaypoint (h.graph.getLane l).exit_wp).x,
           (h.graph.getWaypoint (h.graph.getLane l).exit_wp).y)
          ((h.graph.getWaypoint (h.graph.getLane l).entry_wp).x,
           (h.graph.getWaypoint (h.graph.getLane l).entry_wp).y)) < 0) :
    newlyClosedLanes h closed = some (h,
      (match h.graph.laneFrom (h.graph.getLane l).exit_wp
          (h.graph.getLane l).entry_wp with
       | some rev => [Event.updatePositionLanes st.location.x st.location.y
           st.location.yaw [rev]]
       | none => [Event.updatePositionWaypoint st.location.x st.location.y
           st.location.yaw (h.graph.getLane l).entry_wp])
      ++ [Event.replanRequested]) := by
  have hc : closed.contains l = true := by simpa using h5
  have hfil : ([l].filter (fun x => closed.contains x)) = [l] := by
    simp [List.filter, h5]
  have hstr : strandedEvents h.graph st.location l =
      (match h.graph.laneFrom (h.graph.getLane l).exit_wp
          (h.graph.getLane l).entry_wp with
       | some rev => [Event.updatePositionLanes st.location.x st.location.y
           st.location.yaw [rev]]
       | none => [Event.updatePositionWaypoint st.location.x st.location.y
           st.location.yaw (h.graph.getLane l).entry_wp]) := by
    simp only [strandedEvents]
    rw [if_pos ⟨h6, not_le.mpr h7⟩]
  unfold newlyClosedLanes
  simp only [h1]
  rw [dif_pos h2]
  simp only [h3, h4, hfil]
  simp only [List.map_cons, List.map_nil, List.flatten_cons, List.flatten_nil,
    List.append_nil]
  rw [hstr]
  simp


theorem stranded_reposition_exactly_one_witness :
    newlyClosedLanes planHandle [0] = some (planHandle,
      [Event.updatePositionLanes (1/2) 0 0 [1], Event.replanRequested]) := by
  have hthm := stranded_reposition_exactly_one planHandle [0] 0 0
    (sampleState (1/2) 0) rfl (by decide) rfl rfl (by decide)
    (by norm_num [dot2, sub2, Graph.getWaypoint, Graph.getLane, planHandle,
      mkHandle, sampleGraph, sampleState, sampleLoc])
    (by norm_num [dot2, sub2, Graph.getWaypoint, Graph.getLane, planHandle,
      mkHandle, sampleGraph, sampleState, sampleLoc])
  rw [hthm, show planHandle.graph.laneFrom (planHandle.graph.getLane 0).exit_wp
      (planHandle.graph.getLane 0).entry_wp = some 1 from by decide]
  rfl



/-- Modelled from the spec: the estimation functions "advance
target_plan_index to the next waypoint the robot has not yet reached" — the
index they store always refers to a waypoint of the plan they were given. -/
def EstOk (hh : Handle) (r : EstResult) : Prop :=
  ∀ t, r.target = some t → t < hh.waypoints.length

/-- Modelled from the spec: the well-formedness of all four estimation
functions. -/
def ExtWF (ext : ExtModel) : Prop :=
  ∀ (s : RobotState) (hh : Handle),
    EstOk hh (ext.estimateState s hh)
    ∧ EstOk hh (ext.estimatePathTraveling s hh)
    ∧ EstOk hh (ext.checkPathFinish s hh).1
    ∧ EstOk hh (ext.estimateWaypoint s hh)

/-- The invariant of the robot command handle: an engaged target plan index
is in range of the current plan and a telemetry snapshot has been
recorded. -/
def HandleInv (hh : Handle) : Prop :=
  ∀ t, hh.target_plan_index = some t →
    t < hh.waypoints.length ∧ hh.last_known_state ≠ none

/-- The dispatch keeps the plan and the recorded snapshot, and its resulting
target index is either the input's or comes from one of the estimation
functions applied to a handle with the same plan. -/
theorem updateStateDispatch_target_cases (ext : ExtModel) (now : Int)
    (hh : Handle) (s : RobotState) :
    (updateStateDispatch ext now hh s).1.waypoints = hh.waypoints
    ∧ (updateStateDispatch ext now hh s).1.last_known_state = hh.last_known_state
    ∧ ((updateStateDispatch ext now hh s).1.target_plan_index = hh.target_plan_index
      ∨ ∃ hh2 : Handle, hh2.waypoints = hh.waypoints
        ∧ ((updateStateDispatch ext now hh s).1.target_plan_index
             = (ext.estimateState s hh2).target
          ∨ (updateStateDispatch ext now hh s).1.target_plan_index
             = (ext.estimatePathTraveling s hh2).target
          ∨ (updateStateDispatch ext now hh s).1.target_plan_index
             = (ext.checkPathFinish s hh2).1.target
          ∨ (updateStateDispatch ext now hh s).1.target_plan_index
             = (ext.estimateWaypoint s hh2).target)) := by
  unfold updateStateDispatch
  dsimp only
  repeat' split
  all_goals first
    | exact ⟨rfl, rfl, Or.inl rfl⟩
    | exact ⟨rfl, rfl, Or.inr ⟨hh, rfl, Or.inl rfl⟩⟩
    | exact ⟨rfl, rfl, Or.inr ⟨{ hh with path_requested_time := now }, rfl, Or.inl rfl⟩⟩
    | exact ⟨rfl, rfl, Or.inr ⟨hh, rfl, Or.inr (Or.inl rfl)⟩⟩
    | exact ⟨rfl, rfl, Or.inr ⟨hh, rfl, Or.inr (Or.inr (Or.inl rfl))⟩⟩
    | exact ⟨rfl, rfl, Or.inr ⟨hh, rfl, Or.inr (Or.inr (Or.inr rfl))⟩⟩

/-- Every update_state call re-establishes the handle invariant, for any
well-formed estimation functions. -/
theorem updateState_inv (ext : ExtModel) (now : Int) (h : Handle)
    (s : RobotState) (hwf : ExtWF ext) :
    HandleInv (updateState ext now h s).1 := by
  have hchar := updateStateDispatch_target_cases ext now
    { h with last_known_state := some s, target_plan_index := none } s
  rw [updateState_eq]
  intro t ht
  rcases hchar with ⟨hw, hlk, hcase⟩
  constructor
  · rcases hcase with hsame | ⟨hh2, hw2, hc⟩
    · rw [hsame] at ht
      cases ht
    · rw [hw]
      rcases hc with he | he | he | he <;> rw [he] at ht
      · exact hw2 ▸ (hwf s hh2).1 t ht
      · exact hw2 ▸ (hwf s hh2).2.1 t ht
      · exact hw2 ▸ (hwf s hh2).2.2.1 t ht
      · exact hw2 ▸ (hwf s hh2).2.2.2 t ht
  · rw [hlk]
    simp

/-- stop leaves the plan, target index and recorded snapshot untouched. -/
theorem stop_travel_fields (now : Int) (h : Handle) :
    (stop now h).1.target_plan_index = h.target_plan_index
    ∧ (stop now h).1.waypoints = h.waypoints
    ∧ (stop now h).1.last_known_state = h.last_known_state := by
  simp only [stop, clearLastCommand]
  rcases hls : h.last_known_state with _ | st <;> simp [hls]

/-- handle_interrupt_request leaves the travel state untouched. -/
theorem handleInterruptRequest_travel_fields (h : Handle)
    (req : InterruptRequest) :
    (handleInterruptRequest h req).1.target_plan_index = h.target_plan_index
    ∧ (handleInterruptRequest h req).1.waypoints = h.waypoints
    ∧ (handleInterruptRequest h req).1.last_known_state = h.last_known_state := by
  unfold handleInterruptRequest
  repeat' split
  all_goals exact ⟨rfl, rfl, rfl⟩

/-- newly_closed_lanes mutates nothing of the handle. -/
theorem newlyClosedLanes_state_id (h : Handle) (c : List Nat)
    (r : Handle × List Event) :
    newlyClosedLanes h c = some r → r.1 = h := by
  unfold newlyClosedLanes
  intro hr
  dsimp only at hr
  repeat' split at hr
  all_goals (try (cases hr))
  all_goals rfl

/-- C9: the invariant "an engaged target_plan_index implies a recorded
telemetry snapshot (and an in-range index)" holds initially and is
preserved by every operation of the handle, and under it the unguarded
dereference of _last_known_state inside newly_closed_lanes (and its
waypoints.at lookup) cannot fault. -/
theorem handle_invariant (ext : ExtModel) (g : Graph) (now0 : Int)
    (h : Handle) (op : Op) (closed : List Nat)
    (hwf : ExtWF ext) (hinv : HandleInv h) :
    HandleInv (mkHandle g now0)
    ∧ (∀ h2 evs, step ext h op = some (h2, evs) → HandleInv h2)
    ∧ newlyClosedLanes h closed ≠ none := by
  refine ⟨?_, ?_, ?_⟩
  · intro t ht
    exact absurd ht (by simp [mkHandle])
  · intro h2 evs hstep
    cases op with
    | followNewPath now1 wps =>
      simp only [step] at hstep
      injection hstep with hpair
      have h2eq : h2 = (followNewPath now1 h wps).1 := by rw [hpair]
      rw [h2eq]
      intro t ht
      exact absurd ht (by simp [followNewPath, clearLastCommand])
    | stop now1 =>
      simp only [step] at hstep
      injection hstep with hpair
      have h2eq : h2 = (stop now1 h).1 := by rw [hpair]
      rw [h2eq]
      rcases stop_travel_fields now1 h with ⟨f1, f2, f3⟩
      intro t ht
      rw [f1] at ht
      rcases hinv t ht with ⟨hl, hk⟩
      rw [f2, f3]
      exact ⟨hl, hk⟩
    | dock now1 name =>
      simp only [step, dock] at hstep
      rcases hdl : findDockLane (clearLastCommand h).graph name with _ | l <;>
        rw [hdl] at hstep
      · cases hstep
      · injection hstep with hpair
        injection hpair with hA hB
        subst hA
        intro t ht
        have htgt : h.target_plan_index = some t := ht
        exact hinv t htgt
    | updateState now1 s =>
      simp only [step] at hstep
      injection hstep with hpair
      have h2eq : h2 = (updateState ext now1 h s).1 := by rw [hpair]
      rw [h2eq]
      exact updateState_inv ext now1 h s hwf
    | newlyClosedLanes closed1 =>
      have hid := newlyClosedLanes_state_id h closed1 (h2, evs) hstep
      simp only at hid
      rw [hid]
      exact hinv
    | interruptRequest req =>
      simp only [step] at hstep
      injection hstep with hpair
      have h2eq : h2 = (handleInterruptRequest h req).1 := by rw [hpair]
      rw [h2eq]
      rcases handleInterruptRequest_travel_fields h req with ⟨f1, f2, f3⟩
      intro t ht
      rw [f1] at ht
      rcases hinv t ht with ⟨hl, hk⟩
      rw [f2, f3]
      exact ⟨hl, hk⟩
    | setActionExecution =>
      simp only [step] at hstep
      injection hstep with hpair
      injection hpair with hA hB
      subst hA
      intro t ht
      have htgt : h.target_plan_index = some t := ht
      exact hinv t htgt
    | completeRobotAction =>
      simp only [step, completeRobotAction] at hstep
      split at hstep <;>
      · injection hstep with hpair
        injection hpair with hA hB
        subst hA
        intro t ht
        have htgt : h.target_plan_index = some t := ht
        exact hinv t htgt
  · rcases htp : h.target_plan_index with _ | tgt
    · unfold newlyClosedLanes
      simp only [htp]
      simp
    · rcases hinv tgt htp with ⟨hlt, hlk⟩
      unfold newlyClosedLanes
      simp only [htp]
      rw [dif_pos hlt]
      rcases hls : h.last_known_state with _ | st
      · exact absurd hls hlk
      · simp only [hls]
        simp

theorem handle_invariant_witness :
    HandleInv (mkHandle sampleGraph 0)
    ∧ (∀ h2 evs, step trivExt planHandle (Op.stop 3) = some (h2, evs) → HandleInv h2)
    ∧ newlyClosedLanes planHandle [0] ≠ none := by
  have hwf : ExtWF trivExt := by
    intro s hh
    refine ⟨?_, ?_, ?_, ?_⟩ <;> (intro t ht; cases ht)
  have hinv : HandleInv planHandle := by
    intro t ht
    have ht0 : some 0 = some t := ht
    injection ht0 with ht1
    subst ht1
    exact ⟨by decide, by simp [planHandle]⟩
  exact handle_invariant trivExt sampleGraph 0 planHandle (Op.stop 3) [0] hwf hinv



/-- A plan-start computation that always fails (empty start set). -/
def fext0 : FleetExt :=
  ⟨fun _ _ _ => 0⟩

/-- A fresh fleet over `sampleGraph` with no robots. -/
def conn0 : Connections :=
  ⟨sampleGraph, [], []⟩

/-- Telemetry for a robot reporting from a level absent from the graph. -/
def s5 : RobotState :=
  { sampleState 0 0 with
    location := { sampleLoc 0 0 with level_name := "L2" } }

/-- Appending a fresh name to the robot map makes it findable. -/
theorem find?_append_self (l : List (String × Option Handle)) (name : String)
    (v : Option Handle)
    (hf : l.find? (fun p => p.1 == name) = none) :
    (l ++ [(name, v)]).find? (fun p => p.1 == name) = some (name, v) := by
  rw [List.find?_append, hf]
  simp [List.find?]

/-- C5 (amended): when compute_plan_starts returns an empty start set for a
robot not yet in the fleet, no handle is registered and the unlocatable
diagnostic naming the nearest graph element is emitted — but the robot's
name remains in the map as a null placeholder, so re-sending the same
telemetry does NOT re-run the computation: the robot is never retried. -/
theorem unlocatable_not_retried (ext : ExtModel) (fext : FleetExt)
    (now now2 : Int) (c : Connections) (s : RobotState)
    (hnew : lookupRobot c s.name = none)
    (hempty : fext.computePlanStarts s.location.level_name
      (s.location.x, s.location.y, s.location.yaw) now = 0) :
    (handleRobotState ext fext now c s).2
      = [FleetEvent.computeStartsCalled s.name,
         FleetEvent.diagnosticUnlocatable s.name
           (distance_from_graph s.location c.graph)]
    ∧ lookupRobot (handleRobotState ext fext now c s).1 s.name = some none
    ∧ (handleRobotState ext fext now c s).1.robots
        = c.robots ++ [(s.name, none)]
    ∧ handleRobotState ext fext now2 (handleRobotState ext fext now c s).1 s
        = ((handleRobotState ext fext now c s).1, []) := by
  have hf : c.robots.find? (fun p => p.1 == s.name) = none := by
    unfold lookupRobot at hnew
    exact Option.map_eq_none'.mp hnew
  have hfind2 : (c.robots ++ [(s.name, (none : Option Handle))]).find?
      (fun p => p.1 == s.name) = some (s.name, none) :=
    find?_append_self c.robots s.name none hf
  have hlook1 : lookupRobot { c with robots := c.robots ++ [(s.name, none)] }
      s.name = some none := by
    unfold lookupRobot
    dsimp only
    rw [hfind2]
    rfl
  have hstep1 : handleRobotState ext fext now c s =
      ({ c with robots := c.robots ++ [(s.name, none)] },
       [FleetEvent.computeStartsCalled s.name,
        FleetEvent.diagnosticUnlocatable s.name
          (distance_from_graph s.location c.graph)]) := by
    unfold handleRobotState
    simp only [hnew]
    unfold addRobot
    dsimp only
    rw [hempty, if_pos rfl]
    simp only [hlook1]
  have hstep2 : handleRobotState ext fext now2
      ({ c with robots := c.robots ++ [(s.name, none)] } : Connections) s
      = (({ c with robots := c.robots ++ [(s.name, none)] } : Connections), []) := by
    unfold handleRobotState
    simp only [hlook1]
  refine ⟨by rw [hstep1], by rw [hstep1]; exact hlook1, by rw [hstep1], ?_⟩
  rw [hstep1]
  exact hstep2

theorem unlocatable_rerun_refuted :
    (handleRobotState trivExt fext0 0 conn0 s5).2
      = [FleetEvent.computeStartsCalled "r1",
         FleetEvent.diagnosticUnlocatable "r1" none]
    ∧ lookupRobot (handleRobotState trivExt fext0 0 conn0 s5).1 "r1" = some none
    ∧ handleRobotState trivExt fext0 1 (handleRobotState trivExt fext0 0 conn0 s5).1 s5
      = ((handleRobotState trivExt fext0 0 conn0 s5).1, []) := by
  refine ⟨?_, ?_, ?_⟩ <;>
    norm_num [handleRobotState, addRobot, lookupRobot, setRobot, conn0, fext0, s5,
      sampleState, sampleLoc, sampleGraph, distance_from_graph, List.find?,
      List.enum, List.enumFrom, Graph.getWaypoint, Graph.getLane,
      considerCandidate, sqNorm, dot2, sub2,
      show ¬ ("L2" : String) = "L1" by decide,
      show ¬ ("L1" : String) = "L2" by decide]

theorem unlocatable_not_retried_witness :
    (handleRobotState trivExt fext0 0 conn0 s5).2
      = [FleetEvent.computeStartsCalled s5.name,
         FleetEvent.diagnosticUnlocatable s5.name
           (distance_from_graph s5.location conn0.graph)]
    ∧ lookupRobot (handleRobotState trivExt fext0 0 conn0 s5).1 s5.name = some none
    ∧ (handleRobotState trivExt fext0 0 conn0 s5).1.robots
        = conn0.robots ++ [(s5.name, none)]
    ∧ handleRobotState trivExt fext0 1 (handleRobotState trivExt fext0 0 conn0 s5).1 s5
        = ((handleRobotState trivExt fext0 0 conn0 s5).1, []) :=
  unlocatable_not_retried trivExt fext0 0 1 conn0 s5 rfl rfl


end FleetAdapter
